import Mathlib

/-!
Shallow embedding of the `gqbd` SQL query builder (file `gqbd.go`) and
verification of its specification.

Modelling conventions:
* Go's `type DBType string` is a string type, so `DBType` is `String` here;
  the two declared constants are `PostgreSQL = "postgres"` and
  `MariaDB = "mariadb"`, and other strings are legal `DBType` values.
* Go's `interface{}` argument values are modelled by the inductive `Value`
  (integers and strings suffice for the properties at hand; `Build` itself
  appends `int` values for LIMIT/OFFSET).
* Go slices become Lean lists; `append` on a slice becomes `++`.
* Placeholder indices are Go `int`s, but every index the package ever passes
  is `len(args)+1 ≥ 1`, so they are modelled as `Nat`.  The `limit` and
  `offset` fields keep their signed type `Int` because negative values are
  accepted and compared against `0`.
* `strings.ReplaceAll` is only used with a single-character pattern; it is
  embedded as the character-wise map `replaceAllChar`.
* `fmt.Sprintf` calls are expanded to the concatenations they produce.  In
  `WhereBetween` the format string `"%s BETWEEN %s AND %s"` has three verbs
  but only two operands; Go renders the missing operand as the literal text
  `%!s(MISSING)`, and the embedding reproduces that.
* A method with a pointer receiver that mutates the builder becomes a
  function returning the updated builder.  `Build` returns the query string,
  the argument list and the mutated builder (Go returns `qb.args` of the
  mutated receiver, so the returned list and the receiver's list coincide).
-/

namespace GQBD

/-- Go: `type DBType string`. -/
abbrev DBType := String

/-- Go constant `PostgreSQL DBType = "postgres"`. -/
def PostgreSQL : DBType := "postgres"

/-- Go constant `MariaDB DBType = "mariadb"`. -/
def MariaDB : DBType := "mariadb"

/-- Dynamic argument values (`interface\x7b\x7d` in Go). -/
inductive Value where
  | vint (n : Int)
  | vstr (s : String)
  deriving DecidableEq, Repr

/-- Go struct `QueryBuilder`. -/
structure QueryBuilder where
  dbType : DBType
  table : String
  columns : List String
  joins : List String
  conditions : List String
  groupBy : List String
  having : List String
  orderBy : String
  limit : Int
  offset : Int
  args : List Value
  distinct : Bool
  deriving DecidableEq, Repr

/-- Character-wise replacement loop underlying `replaceAllChar`. -/
def racGo (c : Char) (rep : String) : List Char → String
  | [] => ""
  | ch :: cs => (if ch = c then rep else String.singleton ch) ++ racGo c rep cs

/-- Go `strings.ReplaceAll s (String.singleton c) rep` for a one-character
pattern: every occurrence of the character is replaced, all other characters
pass through. -/
def replaceAllChar (s : String) (c : Char) (rep : String) : String :=
  racGo c rep s.data

/-- Go func `escapeIdentifier` (gqbd.go lines 153-161). -/
def escapeIdentifier (dbType : DBType) (name : String) : String :=
  if name = "*" then name
  else if dbType = PostgreSQL then
    "\"" ++ replaceAllChar name '"' "\"\"" ++ "\""
  else
    "`" ++ replaceAllChar name '`' "``" ++ "`"

/-- Go `strings.ToUpper`, embedded as the character-wise upper-casing map
(the directions compared against are plain ASCII). -/
def toUpperGo (s : String) : String := ⟨s.data.map Char.toUpper⟩

/-- Go func `validateDirection` (gqbd.go lines 164-170). -/
def validateDirection (direction : String) : String :=
  let d := toUpperGo direction
  if d ≠ "ASC" ∧ d ≠ "DESC" then "DESC" else d

/-- The accumulator loop of `replacePlaceholders` (gqbd.go lines 178-187):
Go ranges over the runes of the condition, appending to a `strings.Builder`
and incrementing the placeholder counter at each `?`. -/
def rpLoop : List Char → Nat → String → String
  | [], _, acc => acc
  | ch :: cs, count, acc =>
    if ch = '?' then rpLoop cs (count + 1) (acc ++ "$" ++ toString count)
    else rpLoop cs count (acc ++ String.singleton ch)

/-- Go func `replacePlaceholders` (gqbd.go lines 173-189).  Note the early
return fires only on `dbType == MariaDB`; every other dialect, PostgreSQL or
unknown, runs the rewriting loop. -/
def replacePlaceholders (dbType : DBType) (condition : String) (startIdx : Nat) : String :=
  if dbType = MariaDB then condition
  else rpLoop condition.data startIdx ""

/-- Go func `generatePlaceholders` (gqbd.go lines 192-204): builds a slice of
`count` placeholder strings and joins it with `", "`. -/
def generatePlaceholders (dbType : DBType) (startIdx count : Nat) : String :=
  let placeholders := (List.range count).map (fun i =>
    if dbType = PostgreSQL then "$" ++ toString (startIdx + i) else "?")
  String.intercalate ", " placeholders

/-- Go func `NewQueryBuilder` (gqbd.go lines 35-49). -/
def NewQueryBuilder (dbType : DBType) (table : String) (columns : List String) : QueryBuilder :=
  let safeTable := escapeIdentifier dbType table
  let safeColumns := columns.map (escapeIdentifier dbType)
  let safeColumns := if safeColumns.length = 0 then ["*"] else safeColumns
  { dbType := dbType, table := safeTable, columns := safeColumns,
    joins := [], conditions := [], groupBy := [], having := [],
    orderBy := "", limit := 0, offset := 0, args := [], distinct := false }

/-- Go method `Distinct` (gqbd.go lines 52-55). -/
def Distinct (qb : QueryBuilder) : QueryBuilder :=
  { qb with distinct := true }

/-- Go method `Aggregate` (gqbd.go lines 58-62). -/
def Aggregate (qb : QueryBuilder) (function column : String) : QueryBuilder :=
  let safeCol := escapeIdentifier qb.dbType column
  { qb with columns := qb.columns ++ [function ++ "(" ++ safeCol ++ ")"] }

/-- Go method `LeftJoin` (gqbd.go lines 65-69). -/
def LeftJoin (qb : QueryBuilder) (joinTable onCondition : String) : QueryBuilder :=
  let safeTable := escapeIdentifier qb.dbType joinTable
  { qb with joins := qb.joins ++ ["LEFT JOIN " ++ safeTable ++ " ON " ++ onCondition] }

/-- Go method `InnerJoin` (gqbd.go lines 72-76). -/
def InnerJoin (qb : QueryBuilder) (joinTable onCondition : String) : QueryBuilder :=
  let safeTable := escapeIdentifier qb.dbType joinTable
  { qb with joins := qb.joins ++ ["INNER JOIN " ++ safeTable ++ " ON " ++ onCondition] }

/-- Go method `RightJoin` (gqbd.go lines 79-83). -/
def RightJoin (qb : QueryBuilder) (joinTable onCondition : String) : QueryBuilder :=
  let safeTable := escapeIdentifier qb.dbType joinTable
  { qb with joins := qb.joins ++ ["RIGHT JOIN " ++ safeTable ++ " ON " ++ onCondition] }

/-- Go method `Where` (gqbd.go lines 86-91). -/
def Where (qb : QueryBuilder) (condition : String) (args : List Value) : QueryBuilder :=
  let updatedCondition := replacePlaceholders qb.dbType condition (qb.args.length + 1)
  { qb with conditions := qb.conditions ++ [updatedCondition],
            args := qb.args ++ args }

/-- Go method `WhereIn` (gqbd.go lines 94-100). -/
def WhereIn (qb : QueryBuilder) (column : String) (values : List Value) : QueryBuilder :=
  let safeCol := escapeIdentifier qb.dbType column
  let placeholders := generatePlaceholders qb.dbType (qb.args.length + 1) values.length
  { qb with conditions := qb.conditions ++ [safeCol ++ " IN (" ++ placeholders ++ ")"],
            args := qb.args ++ values }

/-- Go method `WhereBetween` (gqbd.go lines 103-109).  The format string
`"%s BETWEEN %s AND %s"` receives only two operands (`safeCol` and the joined
placeholder pair), so Go substitutes them into the first two verbs and renders
the third verb as `%!s(MISSING)`. -/
def WhereBetween (qb : QueryBuilder) (column : String) (startVal endVal : Value) : QueryBuilder :=
  let safeCol := escapeIdentifier qb.dbType column
  let placeholders := generatePlaceholders qb.dbType (qb.args.length + 1) 2
  { qb with conditions := qb.conditions ++
              [safeCol ++ " BETWEEN " ++ placeholders ++ " AND %!s(MISSING)"],
            args := qb.args ++ [startVal, endVal] }

/-- Go method `GroupBy` (gqbd.go lines 112-117). -/
def GroupBy (qb : QueryBuilder) (columns : List String) : QueryBuilder :=
  { qb with groupBy := qb.groupBy ++ columns.map (escapeIdentifier qb.dbType) }

/-- Go method `Having` (gqbd.go lines 120-125). -/
def Having (qb : QueryBuilder) (condition : String) (args : List Value) : QueryBuilder :=
  let updatedCondition := replacePlaceholders qb.dbType condition (qb.args.length + 1)
  { qb with having := qb.having ++ [updatedCondition],
            args := qb.args ++ args }

/-- Go method `OrderBy` (gqbd.go lines 128-138).  The allow-list is a Go
`map[string]bool` consulted only for key presence, so it is modelled as the
optional list of its keys (`nil` map = `none`). -/
def OrderBy (qb : QueryBuilder) (column direction : String)
    (allowedColumns : Option (List String)) : QueryBuilder :=
  let direction := validateDirection direction
  let column := match allowedColumns with
    | none => column
    | some allowed => if column ∈ allowed then column else "id"
  let safeCol := escapeIdentifier qb.dbType column
  { qb with orderBy := safeCol ++ " " ++ direction }

/-- Go method `Limit` (gqbd.go lines 141-144). -/
def Limit (qb : QueryBuilder) (limit : Int) : QueryBuilder :=
  { qb with limit := limit }

/-- Go method `Offset` (gqbd.go lines 147-150). -/
def Offset (qb : QueryBuilder) (offset : Int) : QueryBuilder :=
  { qb with offset := offset }

/-- Result of `Build`: the SQL text, the returned argument slice, and the
mutated receiver (Go appends LIMIT/OFFSET values to `qb.args` in place). -/
structure BuildResult where
  query : String
  args : List Value
  builder : QueryBuilder
  deriving DecidableEq, Repr

/-- Go method `Build` (gqbd.go lines 207-244). -/
def Build (qb : QueryBuilder) : BuildResult :=
  let q1 := "SELECT " ++ String.intercalate ", " qb.columns ++ " FROM " ++ qb.table
  let q2 := if qb.joins.length > 0 then q1 ++ " " ++ String.intercalate " " qb.joins else q1
  let q3 := if qb.conditions.length > 0 then
              q2 ++ " WHERE " ++ String.intercalate " AND " qb.conditions else q2
  let q4 := if qb.orderBy ≠ "" then q3 ++ " ORDER BY " ++ qb.orderBy else q3
  let argIdx := qb.args.length + 1
  let q5 := if qb.limit > 0 then q4 ++ " LIMIT $" ++ toString argIdx else q4
  let args5 := if qb.limit > 0 then qb.args ++ [Value.vint qb.limit] else qb.args
  let argIdx5 := if qb.limit > 0 then argIdx + 1 else argIdx
  let q6 := if qb.offset > 0 then q5 ++ " OFFSET $" ++ toString argIdx5 else q5
  let args6 := if qb.offset > 0 then args5 ++ [Value.vint qb.offset] else args5
  { query := q6, args := args6, builder := { qb with args := args6 } }

/-! ## Spec-side definitions

The following definitions restate, in the specification's own words, what the
helpers above are claimed to compute.  They are deliberately written in a
different style from the embedded code so that the theorems relating the two
are informative. -/

/-- Spec-side rendering of the placeholder translator for the
positional-numbered dialect: each literal `?` becomes the next sequential
marker `$N` with `N` incrementing from the start index, and every other
character passes through verbatim. -/
def rpSpec : List Char → Nat → String
  | [], _ => ""
  | ch :: cs, n =>
    if ch = '?' then "$" ++ toString n ++ rpSpec cs (n + 1)
    else String.singleton ch ++ rpSpec cs n

/-- Spec-side doubling of a quote character: every occurrence of `q` in the
name is doubled, every other character is kept. -/
def doubleChar (q : Char) (s : String) : String :=
  ⟨s.data.flatMap (fun ch => if ch = q then [q, q] else [ch])⟩

/-- The part of the assembled statement before pagination: SELECT list, FROM,
JOIN clauses in order, WHERE fragments joined by ` AND `, ORDER BY. -/
def buildCore (qb : QueryBuilder) : String :=
  let q1 := "SELECT " ++ String.intercalate ", " qb.columns ++ " FROM " ++ qb.table
  let q2 := if qb.joins.length > 0 then q1 ++ " " ++ String.intercalate " " qb.joins else q1
  let q3 := if qb.conditions.length > 0 then
              q2 ++ " WHERE " ++ String.intercalate " AND " qb.conditions else q2
  if qb.orderBy ≠ "" then q3 ++ " ORDER BY " ++ qb.orderBy else q3

/-- The LIMIT clause `Build` emits: present exactly when `limit > 0`, always
in the positional-numbered `$n` style, numbered `len(args)+1`. -/
def limitClause (qb : QueryBuilder) : String :=
  if qb.limit > 0 then " LIMIT $" ++ toString (qb.args.length + 1) else ""

/-- The OFFSET clause `Build` emits: present exactly when `offset > 0`,
always in the `$n` style, numbered after the LIMIT placeholder if any. -/
def offsetClause (qb : QueryBuilder) : String :=
  if qb.offset > 0 then
    " OFFSET $" ++ toString (qb.args.length + (if qb.limit > 0 then 1 else 0) + 1)
  else ""

/-- Spec-side assembler: fixed clause order
`SELECT columns FROM table [JOIN...] [WHERE ...] [ORDER BY ...] [LIMIT $n]
[OFFSET $n]`, each optional clause omitted when its state is empty.  It does
not consult `distinct`, `groupBy` or `having`. -/
def assembleSpec (qb : QueryBuilder) : String :=
  "SELECT " ++ String.intercalate ", " qb.columns ++ " FROM " ++ qb.table
    ++ (if qb.joins ≠ [] then " " ++ String.intercalate " " qb.joins else "")
    ++ (if qb.conditions ≠ [] then " WHERE " ++ String.intercalate " AND " qb.conditions else "")
    ++ (if qb.orderBy ≠ "" then " ORDER BY " ++ qb.orderBy else "")
    ++ limitClause qb ++ offsetClause qb

/-! ## Traces of builder calls

For the numbering invariant the argument-consuming builder calls are
reified as a trace of operations. -/

/-- Number of literal `?` placeholder characters in a raw condition. -/
def countQ (s : String) : Nat := s.data.count '?'

/-- One builder call in a trace. -/
inductive Op where
  | whereOp (condition : String) (args : List Value)
  | whereInOp (column : String) (values : List Value)
  | whereBetweenOp (column : String) (startVal endVal : Value)
  | havingOp (condition : String) (args : List Value)
  | limitOp (n : Int)
  | offsetOp (n : Int)
  | buildOp
  deriving DecidableEq, Repr

/-- Apply one builder call to the builder state (for `buildOp`, the state
after `Build` has mutated the receiver). -/
def applyOp (qb : QueryBuilder) : Op → QueryBuilder
  | .whereOp c a => Where qb c a
  | .whereInOp c v => WhereIn qb c v
  | .whereBetweenOp c s e => WhereBetween qb c s e
  | .havingOp c a => Having qb c a
  | .limitOp n => Limit qb n
  | .offsetOp n => Offset qb n
  | .buildOp => (Build qb).builder

/-- Apply a trace of builder calls from left to right. -/
def applyOps (qb : QueryBuilder) (ops : List Op) : QueryBuilder :=
  ops.foldl applyOp qb

/-- Number of placeholder tokens a call embeds into its fragment: one per
`?` for `Where`/`Having`, one per value for `WhereIn`, two for
`WhereBetween`, and one per emitted pagination clause for `Build`. -/
def opPlaceholders (qb : QueryBuilder) : Op → Nat
  | .whereOp c _ => countQ c
  | .whereInOp _ v => v.length
  | .whereBetweenOp _ _ _ => 2
  | .havingOp c _ => countQ c
  | .limitOp _ => 0
  | .offsetOp _ => 0
  | .buildOp => (if qb.limit > 0 then 1 else 0) + (if qb.offset > 0 then 1 else 0)

/-- A call is well formed when the caller supplies exactly one argument per
placeholder token, which for `Where`/`Having` means one argument per `?` in
the raw condition; all other calls pair arguments with placeholders by
construction. -/
def opWF : Op → Bool
  | .whereOp c a => a.length == countQ c
  | .havingOp c a => a.length == countQ c
  | _ => true

/-- Total number of placeholders a trace embeds, accumulated along the
evolving builder state. -/
def phTotal (qb : QueryBuilder) : List Op → Nat
  | [] => 0
  | op :: ops => opPlaceholders qb op + phTotal (applyOp qb op) ops

/-- The placeholder indices a trace allocates, in order.  Each call allocates
starting at `qb.args.length + 1`: that is literally the start index the code
passes to `replacePlaceholders`/`generatePlaceholders` in `Where`, `WhereIn`,
`WhereBetween` and `Having`, and the `argIdx := len(args)+1` from which
`Build` numbers LIMIT and OFFSET. -/
def allocIndices (qb : QueryBuilder) : List Op → List Nat
  | [] => []
  | op :: ops =>
    List.range' (qb.args.length + 1) (opPlaceholders qb op)
      ++ allocIndices (applyOp qb op) ops

/-! ## Helper lemmas -/

/-- The accumulator loop of the placeholder translator computes the spec-side
rendering appended to the accumulator. -/
theorem rpLoop_eq (cs : List Char) : ∀ (n : Nat) (acc : String),
    rpLoop cs n acc = acc ++ rpSpec cs n := by
  induction cs with
  | nil => intro n acc; simp [rpLoop, rpSpec, String.append_empty]
  | cons ch cs ih =>
    intro n acc
    by_cases h : ch = '?' <;>
      simp [rpLoop, rpSpec, h, ih, String.append_assoc]

/-- Character data produced by the replacement loop. -/
theorem racGo_data (c : Char) (rep : String) (cs : List Char) :
    (racGo c rep cs).data
      = cs.flatMap (fun ch => if ch = c then rep.data else [ch]) := by
  induction cs with
  | nil => rfl
  | cons ch cs ih =>
    by_cases h : ch = c <;>
      simp [racGo, h, String.data_append, String.singleton, ih]

/-- Replacing a quote character by two copies of itself doubles every
occurrence of that character. -/
theorem replaceAllChar_double (q : Char) (s : String) :
    replaceAllChar s q ⟨[q, q]⟩ = doubleChar q s := by
  apply String.ext
  simp [replaceAllChar, doubleChar, racGo_data]

/-- The query `Build` returns decomposes as the pagination-free core followed
by the LIMIT and OFFSET clauses. -/
theorem build_query_decomp (qb : QueryBuilder) :
    (Build qb).query = buildCore qb ++ limitClause qb ++ offsetClause qb := by
  unfold Build buildCore limitClause offsetClause
  by_cases hl : qb.limit > 0 <;> by_cases ho : qb.offset > 0 <;>
    simp [hl, ho, String.append_assoc, String.append_empty]

/-- The argument list `Build` returns is the accumulated list, extended by
the limit value when `limit > 0` and then the offset value when
`offset > 0`. -/
theorem build_args_decomp (qb : QueryBuilder) :
    (Build qb).args = qb.args
      ++ (if qb.limit > 0 then [Value.vint qb.limit] else [])
      ++ (if qb.offset > 0 then [Value.vint qb.offset] else []) := by
  unfold Build
  by_cases hl : qb.limit > 0 <;> by_cases ho : qb.offset > 0 <;> simp [hl, ho]

/-- `Build` mutates only the receiver's argument list. -/
theorem build_builder_args (qb : QueryBuilder) :
    (Build qb).builder = { qb with args := (Build qb).args } := rfl

/-- Each well-formed call grows the argument list by exactly the number of
placeholder tokens it embeds. -/
theorem applyOp_args_length (qb : QueryBuilder) (op : Op) (h : opWF op = true) :
    (applyOp qb op).args.length = qb.args.length + opPlaceholders qb op := by
  cases op with
  | whereOp c a =>
    have ha : a.length = countQ c := by simpa [opWF] using h
    simp [applyOp, Where, opPlaceholders, ha]
  | whereInOp c v => simp [applyOp, WhereIn, opPlaceholders]
  | whereBetweenOp c s e => simp [applyOp, WhereBetween, opPlaceholders]
  | havingOp c a =>
    have ha : a.length = countQ c := by simpa [opWF] using h
    simp [applyOp, Having, opPlaceholders, ha]
  | limitOp n => simp [applyOp, Limit, opPlaceholders]
  | offsetOp n => simp [applyOp, Offset, opPlaceholders]
  | buildOp =>
    show (Build qb).builder.args.length = _
    rw [build_builder_args]
    show (Build qb).args.length = _
    rw [build_args_decomp]
    by_cases hl : qb.limit > 0 <;> by_cases ho : qb.offset > 0 <;>
      simp [hl, ho, opPlaceholders]

/-- Along a well-formed trace, the argument list grows by exactly the total
number of placeholders embedded. -/
theorem applyOps_args_length : ∀ (ops : List Op) (qb : QueryBuilder),
    (∀ op ∈ ops, opWF op = true) →
    (applyOps qb ops).args.length = qb.args.length + phTotal qb ops := by
  intro ops
  induction ops with
  | nil => intro qb _; simp [applyOps, phTotal]
  | cons op ops ih =>
    intro qb h
    have h1 : opWF op = true := h op (List.mem_cons_self op ops)
    have h2 : ∀ o ∈ ops, opWF o = true := fun o ho => h o (List.mem_cons_of_mem _ ho)
    show (applyOps (applyOp qb op) ops).args.length = _
    rw [ih (applyOp qb op) h2, applyOp_args_length qb op h1]
    show _ = qb.args.length + (opPlaceholders qb op + phTotal (applyOp qb op) ops)
    omega

/-- Along a well-formed trace, the allocated placeholder indices form the
contiguous range starting at `len(args)+1`. -/
theorem allocIndices_eq : ∀ (ops : List Op) (qb : QueryBuilder),
    (∀ op ∈ ops, opWF op = true) →
    allocIndices qb ops = List.range' (qb.args.length + 1) (phTotal qb ops) := by
  intro ops
  induction ops with
  | nil => intro qb _; simp [allocIndices, phTotal]
  | cons op ops ih =>
    intro qb h
    have h1 : opWF op = true := h op (List.mem_cons_self op ops)
    have h2 : ∀ o ∈ ops, opWF o = true := fun o ho => h o (List.mem_cons_of_mem _ ho)
    show List.range' (qb.args.length + 1) (opPlaceholders qb op)
        ++ allocIndices (applyOp qb op) ops = _
    rw [ih (applyOp qb op) h2, applyOp_args_length qb op h1]
    have key := List.range'_append (qb.args.length + 1) (opPlaceholders qb op)
      (phTotal (applyOp qb op) ops) 1
    simp only [one_mul] at key
    rw [show qb.args.length + opPlaceholders qb op + 1
          = qb.args.length + 1 + opPlaceholders qb op by omega, key]
    show _ = List.range' (qb.args.length + 1)
      (opPlaceholders qb op + phTotal (applyOp qb op) ops)
    congr 1
    omega

/-! ## Claim theorems -/

/-- C4: for every condition string and start index, `replacePlaceholders`
returns the input unchanged for the MariaDB dialect; for the PostgreSQL
dialect it replaces each literal `?` character with `$N`, where `N`
increments by one per replacement starting from the given start index, and
passes every other character through verbatim (`rpSpec`); the substitution is
purely textual, rewriting a `?` even inside a quoted literal. -/
theorem replacePlaceholders_spec (condition : String) (startIdx : Nat) :
    replacePlaceholders MariaDB condition startIdx = condition ∧
    replacePlaceholders PostgreSQL condition startIdx = rpSpec condition.data startIdx ∧
    replacePlaceholders PostgreSQL "a = '?' AND b = ?" 1 = "a = '$1' AND b = $2" := by
  refine ⟨rfl, ?_, by decide⟩
  show rpLoop condition.data startIdx "" = _
  rw [rpLoop_eq, String.empty_append]

/-- C6: `escapeIdentifier` returns the wildcard `*` unchanged; any other name
is wrapped in the dialect's quote character (double-quote for PostgreSQL,
backtick for MariaDB) with every embedded occurrence of that quote character
doubled, so the name cannot close the quoted identifier early. -/
theorem escapeIdentifier_spec (db : DBType) (name : String) (h : name ≠ "*") :
    escapeIdentifier db "*" = "*" ∧
    escapeIdentifier PostgreSQL name = "\"" ++ doubleChar '"' name ++ "\"" ∧
    escapeIdentifier MariaDB name = "`" ++ doubleChar '`' name ++ "`" := by
  refine ⟨by simp [escapeIdentifier], ?_, ?_⟩
  · rw [escapeIdentifier, if_neg h, if_pos rfl, ← replaceAllChar_double]
  · rw [escapeIdentifier, if_neg h, if_neg (by decide), ← replaceAllChar_double]

/-- Witness for C6 at the concrete name `a"b`, which is not the wildcard:
the escaped identifier doubles the embedded quote. -/
theorem escapeIdentifier_spec_witness :
    ("a\"b" : String) ≠ "*" ∧ escapeIdentifier PostgreSQL "a\"b" = "\"a\"\"b\"" := by
  have h := escapeIdentifier_spec PostgreSQL "a\"b" (by decide)
  refine ⟨by decide, ?_⟩
  rw [h.2.1]
  decide

/-- C5: `WhereIn` escapes the column, generates exactly `len(values)`
placeholders starting at the current next index (sequential `$n` for
PostgreSQL, repeated `?` for MariaDB) joined with `, ` and wrapped in
`IN (...)`, appends that condition, and appends all values in order; in
particular `whereIn("status",[1,2,3])` on PostgreSQL with no prior arguments
yields `"status" IN ($1, $2, $3)` with arguments `[1,2,3]`. -/
theorem whereIn_spec (qb : QueryBuilder) (column : String) (values : List Value) :
    (WhereIn qb column values).conditions = qb.conditions
      ++ [escapeIdentifier qb.dbType column ++ " IN ("
            ++ generatePlaceholders qb.dbType (qb.args.length + 1) values.length ++ ")"] ∧
    (WhereIn qb column values).args = qb.args ++ values ∧
    (∀ s c, generatePlaceholders PostgreSQL s c
        = String.intercalate ", " ((List.range' s c).map (fun i => "$" ++ toString i))) ∧
    (∀ s c, generatePlaceholders MariaDB s c
        = String.intercalate ", " (List.replicate c "?")) ∧
    (WhereIn (NewQueryBuilder PostgreSQL "t" []) "status"
        [.vint 1, .vint 2, .vint 3]).conditions = ["\"status\" IN ($1, $2, $3)"] ∧
    (WhereIn (NewQueryBuilder PostgreSQL "t" []) "status"
        [.vint 1, .vint 2, .vint 3]).args = [.vint 1, .vint 2, .vint 3] := by
  refine ⟨rfl, rfl, ?_, ?_, by decide, by decide⟩
  · intro s c
    simp only [generatePlaceholders, List.range'_eq_map_range, List.map_map]
    simp [Function.comp_def]
  · intro s c
    simp [generatePlaceholders, MariaDB, PostgreSQL, List.map_const', List.length_range]

/-- C2 (code bug): the condition fragment `WhereBetween` actually appends is
`col BETWEEN $1, $2 AND %!s(MISSING)` — the Go format string
`"%s BETWEEN %s AND %s"` has three verbs but receives only two operands, so
the joined placeholder pair lands in the middle verb and the last verb is
rendered as `%!s(MISSING)` — not the `col BETWEEN $1 AND $2` the claim
states.  The argument order start-then-end does hold. -/
theorem whereBetween_missing_operand :
    (WhereBetween (NewQueryBuilder PostgreSQL "t" ["age"]) "age"
        (.vint 18) (.vint 65)).conditions
      = ["\"age\" BETWEEN $1, $2 AND %!s(MISSING)"] ∧
    (WhereBetween (NewQueryBuilder PostgreSQL "t" ["age"]) "age"
        (.vint 18) (.vint 65)).args = [.vint 18, .vint 65] ∧
    ("\"age\" BETWEEN $1, $2 AND %!s(MISSING)" : String)
      ≠ "\"age\" BETWEEN $1 AND $2" := by
  exact ⟨by decide, by decide, by decide⟩

/-- C3: `Build` emits LIMIT and OFFSET with positional `$n` placeholders
regardless of dialect (including MariaDB); each clause is emitted and its
value appended to the arguments exactly when the value is strictly positive,
and when both are present they are appended in LIMIT-then-OFFSET order. -/
theorem build_limit_offset_spec (qb : QueryBuilder) :
    (Build qb).query = buildCore qb ++ limitClause qb ++ offsetClause qb ∧
    (Build qb).args = qb.args
      ++ (if qb.limit > 0 then [Value.vint qb.limit] else [])
      ++ (if qb.offset > 0 then [Value.vint qb.offset] else []) ∧
    (Build (Offset (Limit (NewQueryBuilder PostgreSQL "t" []) 10) 5)).query
      = "SELECT * FROM \"t\" LIMIT $1 OFFSET $2" ∧
    (Build (Offset (Limit (NewQueryBuilder PostgreSQL "t" []) 10) 5)).args
      = [.vint 10, .vint 5] ∧
    (Build (Offset (Limit (NewQueryBuilder MariaDB "t" []) 10) 5)).query
      = "SELECT * FROM `t` LIMIT $1 OFFSET $2" := by
  exact ⟨build_query_decomp qb, build_args_decomp qb, by decide, by decide, by decide⟩

/-- C7: `OrderBy` case-normalizes the direction and keeps it only if it is
exactly `ASC` or `DESC`, defaulting anything else to `DESC`; with a non-null
allow-list a column absent from it is replaced by the literal `id`; exactly
one ORDER BY fragment is kept, a repeated call overwriting the previous one
rather than appending. -/
theorem orderBy_spec (qb : QueryBuilder) (col dir : String)
    (allowed : Option (List String)) :
    (OrderBy qb col dir allowed).orderBy
      = escapeIdentifier qb.dbType
          (match allowed with
           | none => col
           | some al => if col ∈ al then col else "id")
        ++ " " ++ validateDirection dir ∧
    (validateDirection dir = "ASC" ∨ validateDirection dir = "DESC") ∧
    (toUpperGo dir ≠ "ASC" → toUpperGo dir ≠ "DESC" → validateDirection dir = "DESC") ∧
    (∀ al, col ∉ al → (OrderBy qb col dir (some al)).orderBy
        = escapeIdentifier qb.dbType "id" ++ " " ++ validateDirection dir) ∧
    (∀ col' dir' allowed', OrderBy (OrderBy qb col dir allowed) col' dir' allowed'
        = OrderBy qb col' dir' allowed') ∧
    (OrderBy (NewQueryBuilder PostgreSQL "t" []) "x" "sideways" none).orderBy
      = "\"x\" DESC" ∧
    (OrderBy (NewQueryBuilder PostgreSQL "t" []) "unsafe_col" "ASC"
        (some ["id"])).orderBy = "\"id\" ASC" := by
  refine ⟨rfl, ?_, ?_, ?_, fun col' dir' allowed' => rfl, by decide, by decide⟩
  · by_cases h1 : toUpperGo dir = "ASC" <;> by_cases h2 : toUpperGo dir = "DESC" <;>
      simp [validateDirection, h1, h2]
  · intro h1 h2
    simp [validateDirection, h1, h2]
  · intro al hal
    simp [OrderBy, hal]

/-- Witness for C7: at the direction `sideways` (not a valid direction after
upper-casing) and a column outside the allow-list, `OrderBy` defaults to
`DESC` and to the `id` column. -/
theorem orderBy_spec_witness :
    (toUpperGo "sideways" ≠ "ASC" ∧ toUpperGo "sideways" ≠ "DESC") ∧
    validateDirection "sideways" = "DESC" ∧
    ("x" ∉ (["id"] : List String)) ∧
    (OrderBy (NewQueryBuilder PostgreSQL "t" []) "x" "sideways" (some ["id"])).orderBy
      = escapeIdentifier PostgreSQL "id" ++ " " ++ validateDirection "sideways" := by
  have h := orderBy_spec (NewQueryBuilder PostgreSQL "t" []) "x" "sideways" (some ["id"])
  exact ⟨⟨by decide, by decide⟩, h.2.2.1 (by decide) (by decide),
    by decide, h.2.2.2.1 ["id"] (by decide)⟩

/-- C8: the statement text `Build` returns consists of the clauses in the
fixed order SELECT columns, FROM table, JOIN clauses in call order, WHERE
with fragments joined by ` AND ` in call order, ORDER BY, LIMIT, OFFSET,
each optional clause omitted when its state is empty; and the text is
independent of the accumulated `distinct` flag, GROUP BY fragments and
HAVING fragments, which are never emitted. -/
theorem build_clause_order (qb : QueryBuilder) (d : Bool) (g hv : List String)
    (jt oc cond : String) (cargs : List Value) :
    (Build qb).query = assembleSpec qb ∧
    (Build { qb with distinct := d, groupBy := g, having := hv }).query
      = (Build qb).query ∧
    (LeftJoin qb jt oc).joins = qb.joins
      ++ ["LEFT JOIN " ++ escapeIdentifier qb.dbType jt ++ " ON " ++ oc] ∧
    (InnerJoin qb jt oc).joins = qb.joins
      ++ ["INNER JOIN " ++ escapeIdentifier qb.dbType jt ++ " ON " ++ oc] ∧
    (RightJoin qb jt oc).joins = qb.joins
      ++ ["RIGHT JOIN " ++ escapeIdentifier qb.dbType jt ++ " ON " ++ oc] ∧
    (Where qb cond cargs).conditions = qb.conditions
      ++ [replacePlaceholders qb.dbType cond (qb.args.length + 1)] := by
  refine ⟨?_, rfl, rfl, rfl, rfl, rfl⟩
  rw [build_query_decomp]
  unfold buildCore assembleSpec
  by_cases hj : qb.joins = [] <;> by_cases hc : qb.conditions = [] <;>
    by_cases hob : qb.orderBy = "" <;>
    simp [hj, hc, hob, List.length_pos, String.append_assoc, String.append_empty]

/-- C9: `Build` is not idempotent: for a builder whose limit or offset is
strictly positive, a second `Build` on the instance returned by the first
appends the positive limit and/or offset values to the argument sequence
again, so the argument list strictly grows and contains duplicated
LIMIT/OFFSET values, and the second statement numbers its LIMIT/OFFSET
placeholders from the enlarged argument count. -/
theorem build_not_idempotent (qb : QueryBuilder)
    (h : qb.limit > 0 ∨ qb.offset > 0) :
    (Build (Build qb).builder).args
      = (Build qb).args
        ++ (if qb.limit > 0 then [Value.vint qb.limit] else [])
        ++ (if qb.offset > 0 then [Value.vint qb.offset] else []) ∧
    (Build qb).args.length < (Build (Build qb).builder).args.length ∧
    (Build (Build qb).builder).query
      = buildCore qb
        ++ (if qb.limit > 0 then
              " LIMIT $" ++ toString ((Build qb).args.length + 1) else "")
        ++ (if qb.offset > 0 then
              " OFFSET $" ++ toString
                ((Build qb).args.length + (if qb.limit > 0 then 1 else 0) + 1)
            else "") := by
  have hargs : (Build (Build qb).builder).args
      = (Build qb).args
        ++ (if qb.limit > 0 then [Value.vint qb.limit] else [])
        ++ (if qb.offset > 0 then [Value.vint qb.offset] else []) := by
    rw [build_builder_args, build_args_decomp]
  refine ⟨hargs, ?_, ?_⟩
  · rw [hargs]
    rcases h with hl | ho
    · by_cases ho : qb.offset > 0 <;> simp [hl, ho]
    · by_cases hl : qb.limit > 0 <;> simp [hl, ho]
  · rw [build_builder_args, build_query_decomp]
    rfl

/-- Witness for C9 at two concrete builders: one with only the offset
positive — the second build still appends the offset value again, renumbers
the OFFSET placeholder to `$2` and returns the duplicated arguments
`[5, 5]` — and one with only the limit positive, duplicating `[10, 10]`. -/
theorem build_not_idempotent_witness :
    ((Offset (NewQueryBuilder PostgreSQL "t" []) 5).limit > 0 ∨
      (Offset (NewQueryBuilder PostgreSQL "t" []) 5).offset > 0) ∧
    (Build (Offset (NewQueryBuilder PostgreSQL "t" []) 5)).args.length
      < (Build (Build (Offset (NewQueryBuilder PostgreSQL "t" []) 5)).builder).args.length ∧
    (Build (Build (Offset (NewQueryBuilder PostgreSQL "t" []) 5)).builder).args
      = [Value.vint 5, Value.vint 5] ∧
    (Build (Offset (NewQueryBuilder PostgreSQL "t" []) 5)).query
      = "SELECT * FROM \"t\" OFFSET $1" ∧
    (Build (Build (Offset (NewQueryBuilder PostgreSQL "t" []) 5)).builder).query
      = "SELECT * FROM \"t\" OFFSET $2" ∧
    (Build (Build (Limit (NewQueryBuilder PostgreSQL "t" []) 10)).builder).args
      = [Value.vint 10, Value.vint 10] := by
  have h := build_not_idempotent (Offset (NewQueryBuilder PostgreSQL "t" []) 5)
    (by right; decide)
  exact ⟨by right; decide, h.2.1, by decide, by decide, by decide, by decide⟩

/-- C1: along every well-formed trace of builder calls starting from a fresh
builder, the length of the accumulated argument sequence at any point
(`ops.take k`) equals the number of placeholder tokens already embedded in
the accumulated fragments (`phTotal`), every allocation starts numbering at
`len(args)+1` (that is the start index `allocIndices` records, mirroring the
code's call sites), and the final positional numbering is the contiguous
range `1..N` matching the final argument order exactly. -/
theorem placeholder_numbering_invariant (ops : List Op) (db : DBType)
    (table : String) (cols : List String) (hwf : ops.all opWF = true) :
    (applyOps (NewQueryBuilder db table cols) ops).args.length
        = phTotal (NewQueryBuilder db table cols) ops ∧
    allocIndices (NewQueryBuilder db table cols) ops
        = List.range' 1 ((applyOps (NewQueryBuilder db table cols) ops).args.length) ∧
    (∀ k, (applyOps (NewQueryBuilder db table cols) (ops.take k)).args.length
        = phTotal (NewQueryBuilder db table cols) (ops.take k)) ∧
    (∀ k, allocIndices (NewQueryBuilder db table cols) (ops.take k)
        = List.range' 1
            ((applyOps (NewQueryBuilder db table cols) (ops.take k)).args.length)) := by
  have hwf' : ∀ op ∈ ops, opWF op = true := List.all_eq_true.mp hwf
  have hz : (NewQueryBuilder db table cols).args.length = 0 := rfl
  have len := applyOps_args_length ops (NewQueryBuilder db table cols) hwf'
  rw [hz, Nat.zero_add] at len
  have alloc := allocIndices_eq ops (NewQueryBuilder db table cols) hwf'
  rw [hz, Nat.zero_add, ← len] at alloc
  have takeLen : ∀ k, (applyOps (NewQueryBuilder db table cols) (ops.take k)).args.length
      = phTotal (NewQueryBuilder db table cols) (ops.take k) := by
    intro k
    have hk : ∀ op ∈ ops.take k, opWF op = true :=
      fun o ho => hwf' o (List.take_subset k ops ho)
    have := applyOps_args_length (ops.take k) (NewQueryBuilder db table cols) hk
    rwa [hz, Nat.zero_add] at this
  refine ⟨len, alloc, takeLen, ?_⟩
  intro k
  have hk : ∀ op ∈ ops.take k, opWF op = true :=
    fun o ho => hwf' o (List.take_subset k ops ho)
  have := allocIndices_eq (ops.take k) (NewQueryBuilder db table cols) hk
  rwa [hz, Nat.zero_add, ← takeLen k] at this

/-- A concrete well-formed trace exercising every argument-consuming call:
limit, a WHERE with two `?`, a two-value IN, a BETWEEN, a HAVING with one
`?`, and a final build (which allocates the LIMIT placeholder). -/
def opsW : List Op :=
  [.limitOp 10, .whereOp "a = ? AND b = ?" [.vstr "x", .vint 7],
   .whereInOp "s" [.vint 1, .vint 2], .whereBetweenOp "age" (.vint 18) (.vint 65),
   .havingOp "count(*) > ?" [.vint 3], .buildOp]

/-- Witness for C1 on the concrete trace `opsW`: the allocated placeholder
indices are exactly `[1, 2, 3, 4, 5, 6, 7, 8]` and the final argument list
has length 8. -/
theorem placeholder_numbering_invariant_witness :
    opsW.all opWF = true ∧
    allocIndices (NewQueryBuilder PostgreSQL "t" []) opsW
      = List.range' 1 ((applyOps (NewQueryBuilder PostgreSQL "t" []) opsW).args.length) ∧
    allocIndices (NewQueryBuilder PostgreSQL "t" []) opsW = [1, 2, 3, 4, 5, 6, 7, 8] := by
  have h := placeholder_numbering_invariant opsW PostgreSQL "t" [] (by decide)
  exact ⟨by decide, h.2.1, by decide⟩

/-- C10 counterexample: the unrecognized dialect string `sqlite` is not
PostgreSQL, yet `replacePlaceholders` does not return the condition
unchanged as it does for MariaDB — the early return tests `== MariaDB`, so
an unknown dialect falls into the positional `$n` rewriting path. -/
theorem unknown_dialect_cex :
    ("sqlite" : DBType) ≠ PostgreSQL ∧
    replacePlaceholders "sqlite" "x = ?" 1 ≠ "x = ?" ∧
    replacePlaceholders "sqlite" "x = ?" 1 = "x = $1" := by
  exact ⟨by decide, by decide, by decide⟩

/-- C10 amended: for every dialect other than PostgreSQL, `escapeIdentifier`
quotes with backticks and `generatePlaceholders` emits repeated `?` exactly
as for MariaDB, with no error distinguishing an unknown dialect; but
`replacePlaceholders` passes the condition through unchanged only for
exactly MariaDB — for any other non-PostgreSQL dialect it behaves as for
PostgreSQL and rewrites `?` into `$n`. -/
theorem unknown_dialect_amended (db : DBType) (name : String) (s c : Nat)
    (cond : String) (i : Nat) (hdb : db ≠ PostgreSQL) :
    escapeIdentifier db name = escapeIdentifier MariaDB name ∧
    generatePlaceholders db s c = generatePlaceholders MariaDB s c ∧
    (db ≠ MariaDB → replacePlaceholders db cond i = replacePlaceholders PostgreSQL cond i) := by
  refine ⟨?_, ?_, ?_⟩
  · by_cases hn : name = "*" <;>
      simp [escapeIdentifier, hn, hdb, show MariaDB ≠ PostgreSQL from by decide]
  · simp [generatePlaceholders, hdb, show MariaDB ≠ PostgreSQL from by decide]
  · intro hm
    rw [replacePlaceholders, if_neg hm, replacePlaceholders,
      if_neg (show PostgreSQL ≠ MariaDB from by decide)]

/-- Witness for C10 (amended) at the unknown dialect `sqlite`. -/
theorem unknown_dialect_amended_witness :
    ("sqlite" : DBType) ≠ PostgreSQL ∧
    escapeIdentifier "sqlite" "a" = escapeIdentifier MariaDB "a" ∧
    replacePlaceholders "sqlite" "x = ?" 1 = replacePlaceholders PostgreSQL "x = ?" 1 := by
  have h := unknown_dialect_amended "sqlite" "a" 1 2 "x = ?" 1 (by decide)
  exact ⟨by decide, h.1, h.2.2 (by decide)⟩

end GQBD
